import Mathlib

/-!
Verification of the "rap" browser screen-capture tool.

This file shallowly embeds the state and the operations of the JavaScript
sources (`src/app.js`, `src/ai.js`, `src/4blind/js/*.js`) as executable Lean
definitions and proves or refutes the frozen claims about them.

JavaScript objects whose field sets matter (capture records) are modelled as
association lists of field name / value pairs; plain JS values are modelled by
the inductive `JSVal` (strings, numbers, blobs, `null`, `undefined`).
Machine-level floating point is modelled by `ℚ` where division matters
(storage-quota ratios).  Timer behaviour is modelled by explicit poll indices
under the browser's single-threaded, registration-ordered timer semantics.
-/

namespace Rapture

/-- A JavaScript value as it occurs in the capture records of `app.js`:
string, number, a binary `Blob`, `null`, or `undefined` (absent field). -/
inductive JSVal where
  | str : String → JSVal
  | num : Int → JSVal
  | blobV : JSVal
  | nullV : JSVal
  | undefV : JSVal
  deriving DecidableEq, Repr

/-- A JavaScript object, modelled as an association list of
field-name/value pairs (field order as in the object literal). -/
abbrev JSObj := List (String × JSVal)

/-- JS truthiness of a `JSVal` (`''`, `0`, `null`, `undefined` are falsy). -/
def JSVal.truthy : JSVal → Bool
  | .str s => s ≠ ""
  | .num n => n ≠ 0
  | .blobV => true
  | .nullV => false
  | .undefV => false

/-- Field access `o.k`: the value stored under `k`, or `undefined`. -/
def getFieldD (o : JSObj) (k : String) : JSVal :=
  (o.lookup k).getD .undefV

/-- Assigning field `k` of an object (used to model spread-with-extra-fields
object literals): overrides an existing field in place, otherwise appends. -/
def setField (o : JSObj) (k : String) (v : JSVal) : JSObj :=
  if (o.map Prod.fst).contains k then
    o.map (fun p => if p.1 = k then (k, v) else p)
  else
    o ++ [(k, v)]

/-- JS `x || null`. -/
def jsOrNull (v : JSVal) : JSVal :=
  if v.truthy then v else .nullV

/-- The `currentCapture` object built by `RaptureCapture.displayCapture`
(src/app.js lines 135-142): an image capture. -/
def imageCurrentCapture (subtype dataUrl timestamp filename : String) : JSObj :=
  [("type", .str "image"), ("subtype", .str subtype), ("dataUrl", .str dataUrl),
   ("timestamp", .str timestamp), ("filename", .str filename)]

/-- The `currentCapture` object built in `CaptureManager.startRecording`'s
`onstop` handler (src/app.js lines 477-483): a video capture holding an
object URL and the recorded blob. -/
def videoCurrentCapture (objectUrl timestamp filename : String) : JSObj :=
  [("type", .str "video"), ("dataUrl", .str objectUrl), ("blob", .blobV),
   ("timestamp", .str timestamp), ("filename", .str filename)]

/-- The record appended by `RaptureCapture.saveToHistory` (src/app.js
lines 238-244): `{...currentCapture, id: Date.now(), thumbnail: type === 'image'
? dataUrl : null, uploadUrl: uploadUrl || null, uploadProvider:
uploadProvider || null}`. -/
def mkSavedCapture (cur : JSObj) (now : Int) : JSObj :=
  setField (setField (setField (setField cur
    "id" (.num now))
    "thumbnail" (if getFieldD cur "type" = .str "image"
                 then getFieldD cur "dataUrl" else .nullV))
    "uploadUrl" (jsOrNull (getFieldD cur "uploadUrl")))
    "uploadProvider" (jsOrNull (getFieldD cur "uploadProvider"))

/-- The state of the `RaptureCapture` controller (src/app.js) that the save
and cleanup operations touch: the pending capture, the newest-first capture
list, and the last measured storage figures (floats, modelled as `ℚ`). -/
structure AppState where
  currentCapture : Option JSObj
  captures : List JSObj
  storageUsed : ℚ
  storageQuota : ℚ

/-- `RaptureCapture.saveToHistory` (src/app.js lines 235-251): returns on a
null `currentCapture`; otherwise unshifts the saved record and truncates with
`slice(0, 50)` ("Keep only last 50 captures"). -/
def saveToHistory (now : Int) (st : AppState) : AppState :=
  match st.currentCapture with
  | none => st
  | some cur =>
      let capture := mkSavedCapture cur now
      { st with captures := (capture :: st.captures).take 50 }

/-- The state of the 4blind `CaptureManager` (src/4blind/js/capture-manager.js):
its newest-first capture list and the `maxCaptures` limit (50 in the
constructor). -/
structure CMState where
  captures : List JSObj
  maxCaptures : Nat

/-- The record built by `CaptureManager.saveCurrentCapture`
(src/4blind/js/capture-manager.js lines 101-105):
`{...window.currentCapture, id: Date.now(), savedAt: new Date().toISOString()}`. -/
def mkCMSavedCapture (cur : JSObj) (now : Int) (savedAt : String) : JSObj :=
  setField (setField cur "id" (.num now)) "savedAt" (.str savedAt)

/-- `CaptureManager.saveCurrentCapture` (src/4blind/js/capture-manager.js
lines 95-133): returns when `window.currentCapture` is null; otherwise
unshifts the record and, when the length exceeds `maxCaptures`, removes the
excess from the tail with `splice(maxCaptures)`. -/
def saveCurrentCapture (windowCapture : Option JSObj) (now : Int)
    (savedAt : String) (st : CMState) : CMState :=
  match windowCapture with
  | none => st
  | some cur =>
      let capture := mkCMSavedCapture cur now savedAt
      let pushed := capture :: st.captures
      { st with captures :=
          if st.maxCaptures < pushed.length then pushed.take st.maxCaptures
          else pushed }

/-- The body of `checkQuotaAndCleanup`'s while loop (src/app.js lines 205-212):
`while (captures.length > 1 && used/quota > 0.7) captures.pop()`.  Neither
`storageUsed` nor `storageQuota` is re-measured inside the loop, so the
ratio test is the constant `cond`; each iteration drops the last (oldest)
element, strictly decreasing the length, which is the termination measure. -/
def cleanupWhile (cond : Bool) (captures : List JSObj) : List JSObj :=
  if h : 1 < captures.length ∧ cond = true then
    cleanupWhile cond captures.dropLast
  else captures
termination_by captures.length
decreasing_by
  rcases h with ⟨h1, _⟩
  simpa [List.length_dropLast] using Nat.sub_lt (Nat.lt_of_le_of_lt (Nat.zero_le 1) h1) Nat.one_pos

/-- `RaptureCapture.checkQuotaAndCleanup` (src/app.js lines 197-218):
returns early when `storageQuota` or `storageUsed` is falsy (0); when the
measured usage percentage exceeds 80 and at least one capture is stored, runs
the eviction loop guarded by the (never re-measured) ratio `used/quota > 0.7`. -/
def checkQuotaAndCleanup (st : AppState) : AppState :=
  if st.storageQuota = 0 ∨ st.storageUsed = 0 then st
  else
    let usagePercent := st.storageUsed / st.storageQuota * 100
    if 80 < usagePercent ∧ 0 < st.captures.length then
      { st with captures :=
          (cleanupWhile (decide ((7 : ℚ)/10 < st.storageUsed / st.storageQuota))
            st.captures) }
    else st

/-- The settings fields of `AutoCaptureManager`
(src/4blind/js/auto-capture.js constructor) touched by the two setters. -/
structure ACState where
  autoCaptureDelay : Int
  autoCaptureCount : Int
  deriving DecidableEq, Repr

/-- The constructor defaults of `AutoCaptureManager`
(src/4blind/js/auto-capture.js lines 10, 13): delay 5000 ms, count 3. -/
def initACState : ACState := ⟨5000, 3⟩

/-- `AutoCaptureManager.setAutoCaptureDelay` (src/4blind/js/auto-capture.js
line 541): `this.autoCaptureDelay = Math.max(1000, delay)`. -/
def setAutoCaptureDelay (delay : Int) (st : ACState) : ACState :=
  { st with autoCaptureDelay := max 1000 delay }

/-- `AutoCaptureManager.setAutoCaptureCount` (src/4blind/js/auto-capture.js
line 554): `this.autoCaptureCount = Math.max(1, Math.min(10, count))`. -/
def setAutoCaptureCount (count : Int) (st : ACState) : ACState :=
  { st with autoCaptureCount := max 1 (min 10 count) }

/-- One call to either `AutoCaptureManager` setter, with its integer
argument. -/
inductive ACCall where
  | setDelay (d : Int)
  | setCount (c : Int)
  deriving DecidableEq, Repr

/-- Apply one setter call to the settings state. -/
def applyACCall (st : ACState) : ACCall → ACState
  | .setDelay d => setAutoCaptureDelay d st
  | .setCount c => setAutoCaptureCount c st

/-- Apply a sequence of setter calls from left to right. -/
def applyACCalls (calls : List ACCall) (st : ACState) : ACState :=
  calls.foldl applyACCall st

/-- The clamping invariant the claim asserts for the auto-capture settings. -/
def ACInvariant (st : ACState) : Prop :=
  1 ≤ st.autoCaptureCount ∧ st.autoCaptureCount ≤ 10 ∧ 1000 ≤ st.autoCaptureDelay

instance : DecidablePred ACInvariant := fun st => by
  unfold ACInvariant; infer_instance

/-- The observable trace of one run of
`RaptureAccessible.performAnalysisWithRetry` (src/4blind/js/main.js lines
548-569): how many attempts were made, the waits (in ms) inserted between
consecutive attempts, in order, and whether the run returned normally. -/
structure RetryTrace where
  attempts : Nat
  waits : List Nat
  ok : Bool
  deriving DecidableEq, Repr

/-- The retry loop of `performAnalysisWithRetry`, for attempt number
`attempt` with `remaining = maxRetries - attempt + 1` iterations left.
`succeed n` is the environment: whether the awaited
`window.aiAnalyzer.analyzeWithAI()` call of attempt `n` returns without
throwing (an unavailable analyzer makes every attempt fail, via the
`throw new Error('AI Analyzer not available')` branch).  `remaining = 1`
is the `attempt === maxRetries` case, which rethrows; otherwise a failed
attempt awaits `1000 * attempt` ms and continues. -/
def retryGo (succeed : Nat → Bool) (attempt : Nat) : Nat → RetryTrace
  | 0 => ⟨0, [], true⟩
  | 1 => if succeed attempt then ⟨1, [], true⟩ else ⟨1, [], false⟩
  | (r + 2) =>
      if succeed attempt then ⟨1, [], true⟩
      else
        let rest := retryGo succeed (attempt + 1) (r + 1)
        ⟨rest.attempts + 1, 1000 * attempt :: rest.waits, rest.ok⟩

/-- `RaptureAccessible.performAnalysisWithRetry(maxRetries)`: the loop runs
`attempt = 1 .. maxRetries`. -/
def performAnalysisWithRetry (succeed : Nat → Bool) (maxRetries : Nat) : RetryTrace :=
  retryGo succeed 1 maxRetries

/-- An AI provider entry as stored in the main app's `aiProviders` map
(src/4blind/js/main.js); only the name is relevant here. -/
structure Provider where
  name : String
  deriving DecidableEq, Repr

/-- `AIAnalyzer.getFallbackProvider` (src/4blind/js/ai-analyzer.js lines
149-155): `mainApp.aiProviders.get('huggingface')`, or null when the main
app or its provider map is unavailable (`providers = none`). -/
def getFallbackProvider (providers : Option (List (String × Provider))) :
    Option Provider :=
  match providers with
  | none => none
  | some ps => ps.lookup "huggingface"

/-- The try/catch skeleton of `AIAnalyzer.analyzeWithAI`
(src/4blind/js/ai-analyzer.js lines 55-124) around its `performAnalysis`
calls.  `analyze i p` is the environment: the result of the `i`-th
`performAnalysis` call when made with provider `p` (`Except.error` models a
throw).  Returns the overall result and the ordered list of providers
`performAnalysis` was actually called with. -/
def analyzeWithAI (analyze : Nat → Provider → Except String String)
    (selected : Provider) (providers : Option (List (String × Provider))) :
    Except String String × List Provider :=
  match analyze 0 selected with
  | .ok a => (.ok a, [selected])
  | .error e =>
      match getFallbackProvider providers with
      | none => (.error e, [selected])
      | some fb =>
          match analyze 1 fb with
          | .ok a => (.ok a, [selected, fb])
          | .error e2 => (.error e2, [selected, fb])

/-- A thrown JS error value as consumed by the handlers in
`AutoCaptureManager.captureScreen`: its `message` property and the string its
`toString()` yields. -/
structure JsErr where
  message : String
  toStr : String
  deriving DecidableEq, Repr

/-- `error?.message || error?.toString() || fallback`. -/
def errString (e : JsErr) (fallback : String) : String :=
  if e.message ≠ "" then e.message
  else if e.toStr ≠ "" then e.toStr
  else fallback

/-- The browser environment of one `AutoCaptureManager.captureScreen` call:
whether `navigator.mediaDevices.getDisplayMedia` exists, the outcome of the
`getDisplayMedia` promise (the stream's video-track count on success), and
the outcome of the `ImageCapture.grabFrame` promise. -/
structure CaptureEnv where
  apiAvailable : Bool
  displayMedia : Except JsErr Nat
  grabFrame : Except JsErr Unit
  deriving Repr

/-- The settlement value of the promise returned by
`AutoCaptureManager.captureScreen`: it always resolves to
`{success, filename?, error?}`. -/
structure CaptureResult where
  success : Bool
  filename : Option String
  error : Option String
  deriving DecidableEq, Repr

/-- `AutoCaptureManager.captureScreen` (src/4blind/js/auto-capture.js lines
385-443): every branch, including each `.catch` and the outer `try/catch`,
calls `resolve` with a result object — the promise never rejects.  The model
returns the resolved value for every environment. -/
def captureScreen (env : CaptureEnv) (now : Int) : CaptureResult :=
  if ¬env.apiAvailable then
    ⟨false, none, some "Screen capture not supported"⟩
  else
    match env.displayMedia with
    | .error e => ⟨false, none, some (errString e "Failed to access screen capture")⟩
    | .ok nTracks =>
        if nTracks = 0 then ⟨false, none, some "No video track found"⟩
        else
          match env.grabFrame with
          | .error e => ⟨false, none, some (errString e "Failed to capture image")⟩
          | .ok _ => ⟨true, some ("capture_" ++ toString now ++ ".png"), none⟩

/-- The settlement of the promise returned by
`RaptureAccessible.waitForLivePreview`. -/
inductive PreviewOutcome where
  | resolved (atMs : Nat)
  | rejected (msg : String)
  deriving DecidableEq, Repr

/-- The polling chain of `RaptureAccessible.waitForLivePreview`
(src/4blind/js/main.js lines 502-527), checking poll number `k` (at time
`500 * k` ms).  `vis t` is the environment: whether at time `t` ms some
preview element (`previewVideo`, `previewCanvas` or `previewImage`) has
`style.display !== 'none'`.  The rejection timer for
`new Error('Live preview timeout')` was registered at time 0 with delay
10000 ms, so under the browser's registration-ordered timer queue it fires
before the poll that would also run at 10000 ms (registered at 9500 ms):
polls at `500 * k ≥ 10000` never settle the promise first. -/
def previewPoll (vis : Nat → Bool) (k : Nat) : PreviewOutcome :=
  if h : 10000 ≤ 500 * k then .rejected "Live preview timeout"
  else if vis (500 * k) then .resolved (500 * k)
  else previewPoll vis (k + 1)
termination_by 20 - k
decreasing_by
  simp only [not_le] at h
  omega

/-- `RaptureAccessible.waitForLivePreview`: the poll chain starts with an
immediate `checkPreview()` call (poll 0 at time 0). -/
def waitForLivePreview (vis : Nat → Bool) : PreviewOutcome :=
  previewPoll vis 0

/-- The awaited steps of `RaptureAccessible.startEnhancedQuickSequence`
(src/4blind/js/main.js lines 365-404), in source order. -/
inductive SeqStep where
  | capture
  | previewWait
  | enableAnalysis
  | analysis
  | save
  deriving DecidableEq, Repr

/-- The full step list of the enhanced quick sequence in source order. -/
def quickSequenceSteps : List SeqStep :=
  [.capture, .previewWait, .enableAnalysis, .analysis, .save]

/-- The trace of executed steps of `startEnhancedQuickSequence`: each awaited
step runs only after every earlier one returned without throwing; the first
throwing step ends the run (the surrounding `try/catch` reports the error).
`captureOk`, `previewOk`, `analysisOk`, `saveOk` are the environment: whether
`ensureCaptureAvailable`, `waitForLivePreview`, `performAnalysisWithRetry`
and `saveSequenceResults` return without throwing
(`enableAnalysisWhenReady` is synchronous DOM toggling and does not throw). -/
def startEnhancedQuickSequence (captureOk previewOk analysisOk saveOk : Bool) :
    List SeqStep × Bool :=
  ([SeqStep.capture] ++
    (if captureOk then
      [SeqStep.previewWait] ++
        (if previewOk then
          [SeqStep.enableAnalysis, SeqStep.analysis] ++
            (if analysisOk then [SeqStep.save] else [])
        else [])
    else []),
   captureOk && previewOk && analysisOk && saveOk)

/-- Local-storage key for the `RaptureCapture` capture list
(src/app.js lines 7, 211, 246): `'raptureCaptures'`. -/
def raptureCapturesKey : String := "raptureCaptures"

/-- Local-storage key for the `AIAnalyzer` API-key map
(src/4blind/js/ai-analyzer.js line 26): `'raptureAPIKeys'`. -/
def raptureAPIKeysKey : String := "raptureAPIKeys"

/-- Local-storage key for the `AIAnalyzer` analysis history
(src/4blind/js/ai-analyzer.js lines 35, 42): `'raptureAnalysisHistory'`. -/
def raptureAnalysisHistoryKey : String := "raptureAnalysisHistory"

/-- Local-storage key for the `AutoCaptureManager` settings
(src/4blind/js/auto-capture.js lines 159, 203): `'raptureAccessibleSettings'`. -/
def raptureAccessibleSettingsKey : String := "raptureAccessibleSettings"

/-- Local-storage key for the `RaptureAccessible` user preferences
(src/4blind/js/main.js lines 258, 289): `'raptureAccessiblePreferences'`. -/
def raptureAccessiblePreferencesKey : String := "raptureAccessiblePreferences"

/-- Local-storage key for the 4blind `CaptureManager` capture list
(src/4blind/js/capture-manager.js lines 70, 86): `'raptureAccessibleCaptures'`. -/
def raptureAccessibleCapturesKey : String := "raptureAccessibleCaptures"

/-- Every local-storage key the program reads or writes with
`JSON.parse`/`JSON.stringify` (JSON blobs), collected from the sources; the
only further local-storage key anywhere in the program is `'openai_api_key'`
(src/4blind/js/capture-manager.js line 569), read as a plain string, not a
JSON blob. -/
def jsonBlobStorageKeys : List String :=
  [raptureCapturesKey, raptureAPIKeysKey, raptureAnalysisHistoryKey,
   raptureAccessibleSettingsKey, raptureAccessiblePreferencesKey,
   raptureAccessibleCapturesKey]

/-- Modelled from the spec: the four fixed keys the specification names for
the program's local-storage JSON blobs. -/
def specClaimedStorageKeys : List String :=
  ["raptureCaptures", "raptureAPIKeys", "raptureAnalysisHistory",
   "raptureAccessibleSettings"]

/-- Modelled from the spec: the field names the specification allows on a
persisted Capture record — identifier, type tag, data URL, timestamp,
filename, and the optional AI-analysis-text and uploaded-URL/provider
fields (the analysis text field is called `analysis` where the code attaches
it, src/4blind/js/main.js line 664). -/
def specAllowedCaptureFields : List String :=
  ["id", "type", "dataUrl", "timestamp", "filename",
   "analysis", "uploadUrl", "uploadProvider"]

lemma applyACCall_invariant (st : ACState) (c : ACCall) (h : ACInvariant st) :
    ACInvariant (applyACCall st c) := by
  rcases h with ⟨h1, h2, h3⟩
  cases c with
  | setDelay d =>
      refine ⟨h1, h2, ?_⟩
      simp [applyACCall, setAutoCaptureDelay]
  | setCount n =>
      refine ⟨?_, ?_, h3⟩ <;> simp [applyACCall, setAutoCaptureCount]

lemma applyACCalls_invariant (calls : List ACCall) :
    ∀ st : ACState, ACInvariant st → ACInvariant (applyACCalls calls st) := by
  induction calls with
  | nil => intro st h; simpa [applyACCalls] using h
  | cons c cs ih =>
      intro st h
      simpa [applyACCalls, List.foldl_cons] using
        ih (applyACCall st c) (applyACCall_invariant st c h)

/-- C10: after any sequence of `setAutoCaptureCount` / `setAutoCaptureDelay`
calls with arbitrary integer arguments, starting from the constructor
defaults, `autoCaptureCount` stays within 1..10 and `autoCaptureDelay` stays
at least 1000 ms. -/
theorem autoCaptureSettings_clamped (calls : List ACCall) :
    ACInvariant (applyACCalls calls initACState) :=
  applyACCalls_invariant calls initACState (by decide)

/-- C6 counterexample: `raptureAccessiblePreferencesKey`
(`'raptureAccessiblePreferences'`, used for the JSON preference blob in
`RaptureAccessible.loadUserPreferences`/`saveUserPreferences`) is a JSON-blob
local-storage key of the program but is not one of the four keys the claim
fixes. -/
theorem storageKeys_beyond_claimed :
    raptureAccessiblePreferencesKey ∈ jsonBlobStorageKeys ∧
    raptureAccessiblePreferencesKey ∉ specClaimedStorageKeys := by
  decide

/-- C6 (amended): every local-storage key the program reads or writes for its
JSON blobs is one of six fixed keys — the four claimed ones plus
`'raptureAccessiblePreferences'` and `'raptureAccessibleCaptures'`. -/
theorem storageKeys_amended :
    ∀ k ∈ jsonBlobStorageKeys,
      k ∈ specClaimedStorageKeys ++
        [raptureAccessiblePreferencesKey, raptureAccessibleCapturesKey] := by
  decide

/-- Witness for `storageKeys_amended` at the key `'raptureCaptures'`. -/
theorem storageKeys_amended_witness :
    "raptureCaptures" ∈ specClaimedStorageKeys ++
      [raptureAccessiblePreferencesKey, raptureAccessibleCapturesKey] :=
  storageKeys_amended "raptureCaptures" (by decide)

/-- C1: both save operations cap the newest-first capture list at 50 records
and, when the unshifted list would exceed the cap, keep exactly its first 50
records, so the removed records are exactly the tail (oldest) ones: the kept
list followed by the dropped suffix reassembles the full unshifted list. -/
theorem saveOps_cap_and_evict_oldest :
    (∀ (now : Int) (st : AppState) (cur : JSObj), st.currentCapture = some cur →
      (saveToHistory now st).captures = (mkSavedCapture cur now :: st.captures).take 50 ∧
      (saveToHistory now st).captures.length ≤ 50 ∧
      (saveToHistory now st).captures ++ (mkSavedCapture cur now :: st.captures).drop 50
        = mkSavedCapture cur now :: st.captures) ∧
    (∀ (now : Int) (savedAt : String) (st : CMState) (cur : JSObj),
      st.maxCaptures = 50 →
      (saveCurrentCapture (some cur) now savedAt st).captures
        = (mkCMSavedCapture cur now savedAt :: st.captures).take 50 ∧
      (saveCurrentCapture (some cur) now savedAt st).captures.length ≤ 50 ∧
      (saveCurrentCapture (some cur) now savedAt st).captures
          ++ (mkCMSavedCapture cur now savedAt :: st.captures).drop 50
        = mkCMSavedCapture cur now savedAt :: st.captures) := by
  constructor
  · intro now st cur h
    have hcap : (saveToHistory now st).captures
        = (mkSavedCapture cur now :: st.captures).take 50 := by
      simp [saveToHistory, h]
    refine ⟨hcap, ?_, ?_⟩
    · rw [hcap, List.length_take]
      exact min_le_left _ _
    · rw [hcap]
      exact List.take_append_drop _ _
  · intro now savedAt st cur h
    have hcap : (saveCurrentCapture (some cur) now savedAt st).captures
        = (mkCMSavedCapture cur now savedAt :: st.captures).take 50 := by
      simp only [saveCurrentCapture, h]
      by_cases hlen : 50 < (mkCMSavedCapture cur now savedAt :: st.captures).length
      · simp [hlen]
      · simp [hlen, List.take_of_length_le (Nat.le_of_not_lt hlen)]
    refine ⟨hcap, ?_, ?_⟩
    · rw [hcap, List.length_take]
      exact min_le_left _ _
    · rw [hcap]
      exact List.take_append_drop _ _

/-- Witness for `saveOps_cap_and_evict_oldest` at a concrete one-capture
state for each save operation. -/
theorem saveOps_cap_and_evict_oldest_witness :
    (saveToHistory 7 ⟨some (imageCurrentCapture "screen" "d" "t" "f"), [], 0, 0⟩).captures.length ≤ 50 ∧
    (saveCurrentCapture (some (imageCurrentCapture "screen" "d" "t" "f")) 7 "s" ⟨[], 50⟩).captures.length ≤ 50 :=
  ⟨(saveOps_cap_and_evict_oldest.1 7 ⟨some (imageCurrentCapture "screen" "d" "t" "f"), [], 0, 0⟩
      (imageCurrentCapture "screen" "d" "t" "f") rfl).2.1,
   (saveOps_cap_and_evict_oldest.2 7 "s" ⟨[], 50⟩
      (imageCurrentCapture "screen" "d" "t" "f") rfl).2.1⟩

/-- C4: with a pending capture and fewer than 50 stored records,
`saveToHistory` grows the list by exactly one record, placed at the front;
with a null `currentCapture` the list is unchanged. -/
theorem saveToHistory_appends_one :
    (∀ (now : Int) (st : AppState) (cur : JSObj), st.currentCapture = some cur →
      st.captures.length < 50 →
      (saveToHistory now st).captures = mkSavedCapture cur now :: st.captures ∧
      (saveToHistory now st).captures.length = st.captures.length + 1) ∧
    (∀ (now : Int) (st : AppState), st.currentCapture = none →
      (saveToHistory now st).captures = st.captures) := by
  constructor
  · intro now st cur h hlen
    have hle : (mkSavedCapture cur now :: st.captures).length ≤ 50 := by
      simp only [List.length_cons]
      omega
    have hcap : (saveToHistory now st).captures = mkSavedCapture cur now :: st.captures := by
      simp [saveToHistory, h, List.take_of_length_le hle]
    exact ⟨hcap, by rw [hcap]; simp⟩
  · intro now st h
    simp [saveToHistory, h]

/-- Witness for `saveToHistory_appends_one` at a concrete empty state and a
concrete null-capture state. -/
theorem saveToHistory_appends_one_witness :
    (saveToHistory 7 ⟨some (imageCurrentCapture "screen" "d" "t" "f"), [], 0, 0⟩).captures.length = 0 + 1 ∧
    (saveToHistory 7 ⟨none, [], 0, 0⟩).captures = [] :=
  ⟨(saveToHistory_appends_one.1 7 ⟨some (imageCurrentCapture "screen" "d" "t" "f"), [], 0, 0⟩
      (imageCurrentCapture "screen" "d" "t" "f") rfl (by simp)).2,
   saveToHistory_appends_one.2 7 ⟨none, [], 0, 0⟩ rfl⟩

lemma cleanupWhile_false (l : List JSObj) : cleanupWhile false l = l := by
  rw [cleanupWhile]
  simp

lemma cleanupWhile_true_take_one :
    ∀ (n : Nat) (l : List JSObj), l ≠ [] → l.length = n →
      cleanupWhile true l = l.take 1 := by
  intro n
  induction n with
  | zero =>
      intro l h hl
      cases l with
      | nil => exact absurd rfl h
      | cons a t => simp at hl
  | succ n ih =>
      intro l h hl
      rw [cleanupWhile]
      by_cases h1 : 1 < l.length
      · rw [dif_pos ⟨h1, rfl⟩]
        have hlen : l.dropLast.length = n := by
          simp only [List.length_dropLast]
          omega
        have hne : l.dropLast ≠ [] := by
          intro hd
          rw [hd] at hlen
          simp at hlen
          omega
        rw [ih l.dropLast hne hlen]
        cases l with
        | nil => exact absurd rfl h
        | cons a t =>
            cases t with
            | nil => simp at h1
            | cons b t2 => simp
      · rw [dif_neg (by simp [h1])]
        exact (List.take_of_length_le (by omega)).symm

/-- The concrete state refuting C9: an over-quota measurement with an empty
capture list. -/
def emptyHighUsageState : AppState := ⟨none, [], 90, 100⟩

/-- C9 counterexample: with measured usage at 90% of quota (so above 80%,
ratio above 0.7) but no stored captures, `checkQuotaAndCleanup` leaves zero
captures, not exactly one. -/
theorem quotaCleanup_counterexample :
    80 < emptyHighUsageState.storageUsed / emptyHighUsageState.storageQuota * 100 ∧
    7/10 < emptyHighUsageState.storageUsed / emptyHighUsageState.storageQuota ∧
    (checkQuotaAndCleanup emptyHighUsageState).captures.length ≠ 1 := by
  refine ⟨by norm_num [emptyHighUsageState], by norm_num [emptyHighUsageState], ?_⟩
  have h : checkQuotaAndCleanup emptyHighUsageState = emptyHighUsageState := by
    simp [checkQuotaAndCleanup, emptyHighUsageState]
  rw [h]
  simp [emptyHighUsageState]

/-- C9 (amended): `checkQuotaAndCleanup` terminates on every state — its
loop strictly decreases `captures.length`, which is the termination measure
of `cleanupWhile`, and the result never has more captures than the input —
and because `storageUsed` is never re-measured inside the loop, whenever the
measured usage exceeds 80% of quota (hence the never-re-measured ratio is
above 0.7) and at least one capture is stored, it removes captures from the
tail until exactly one capture (the newest, at the head) remains; an empty
list is left empty. -/
theorem quotaCleanup_terminates_and_evicts (st : AppState) :
    (checkQuotaAndCleanup st).captures.length ≤ st.captures.length ∧
    (80 < st.storageUsed / st.storageQuota * 100 →
     7/10 < st.storageUsed / st.storageQuota →
     st.captures ≠ [] →
     (checkQuotaAndCleanup st).captures = st.captures.take 1 ∧
     (checkQuotaAndCleanup st).captures.length = 1) := by
  by_cases hz : st.storageQuota = 0 ∨ st.storageUsed = 0
  · have hres : checkQuotaAndCleanup st = st := by
      simp [checkQuotaAndCleanup, hz]
    refine ⟨by rw [hres], ?_⟩
    intro h80 _ _
    exfalso
    rcases hz with hq | hu
    · rw [hq] at h80
      norm_num at h80
    · rw [hu] at h80
      norm_num at h80
  · by_cases hmain : 80 < st.storageUsed / st.storageQuota * 100 ∧ 0 < st.captures.length
    · have hratio : (7 : ℚ)/10 < st.storageUsed / st.storageQuota := by
        have := hmain.1
        linarith
      have hcond : decide ((7 : ℚ)/10 < st.storageUsed / st.storageQuota) = true :=
        decide_eq_true hratio
      have hne : st.captures ≠ [] := by
        intro hnil
        rw [hnil] at hmain
        simp at hmain
      have hres : (checkQuotaAndCleanup st).captures = st.captures.take 1 := by
        simp only [checkQuotaAndCleanup, if_neg hz, if_pos hmain, hcond]
        exact cleanupWhile_true_take_one st.captures.length st.captures hne rfl
      have hlen1 : (checkQuotaAndCleanup st).captures.length = 1 := by
        rw [hres, List.length_take]
        have : 0 < st.captures.length := hmain.2
        omega
      refine ⟨?_, fun _ _ _ => ⟨hres, hlen1⟩⟩
      rw [hlen1]
      omega
    · have hres : checkQuotaAndCleanup st = st := by
        simp only [checkQuotaAndCleanup, if_neg hz, if_neg hmain]
      refine ⟨by rw [hres], ?_⟩
      intro h80 _ hne
      exfalso
      exact hmain ⟨h80, List.length_pos.mpr hne⟩

/-- Witness for `quotaCleanup_terminates_and_evicts` at a concrete over-quota
two-capture state. -/
theorem quotaCleanup_terminates_and_evicts_witness :
    (checkQuotaAndCleanup ⟨none, [[("a", JSVal.nullV)], [("b", JSVal.nullV)]], 90, 100⟩).captures
      = [[("a", JSVal.nullV)]] :=
  ((quotaCleanup_terminates_and_evicts ⟨none, [[("a", JSVal.nullV)], [("b", JSVal.nullV)]], 90, 100⟩).2
    (by norm_num) (by norm_num) (by simp)).1

lemma retryGo_spec (s : Nat → Bool) :
    ∀ (r a : Nat), 1 ≤ r →
      (retryGo s a r).attempts ≤ r ∧
      1 ≤ (retryGo s a r).attempts ∧
      (retryGo s a r).waits.length = (retryGo s a r).attempts - 1 ∧
      (∀ i (hi : i < (retryGo s a r).waits.length),
        (retryGo s a r).waits.get ⟨i, hi⟩ = 1000 * (a + i)) ∧
      ((∀ n, a ≤ n → n < a + r → s n = false) →
        (retryGo s a r).attempts = r ∧ (retryGo s a r).ok = false) ∧
      (∀ n, a ≤ n → n < a + r → s n = true →
        (∀ k, a ≤ k → k < n → s k = false) →
        (retryGo s a r).attempts = n - a + 1 ∧ (retryGo s a r).ok = true) := by
  intro r
  induction r with
  | zero => intro a h; omega
  | succ r ih =>
      intro a _
      cases r with
      | zero =>
          by_cases hs : s a = true
          · simp only [retryGo, hs, if_true]
            refine ⟨le_refl 1, le_refl 1, rfl, by intro i hi; simp at hi, ?_, ?_⟩
            · intro hall
              exact absurd hs (by simp [hall a (le_refl a) (by omega)])
            · intro n hn1 hn2 _ _
              have : n = a := by omega
              subst this
              simp
          · simp only [retryGo, hs, if_false]
            refine ⟨le_refl 1, le_refl 1, rfl, by intro i hi; simp at hi, ?_, ?_⟩
            · intro _; exact ⟨rfl, rfl⟩
            · intro n hn1 hn2 hsn _
              have : n = a := by omega
              subst this
              simp [hsn] at hs
      | succ r' =>
          by_cases hs : s a = true
          · simp only [retryGo, hs, if_true]
            refine ⟨by omega, le_refl 1, rfl, by intro i hi; simp at hi, ?_, ?_⟩
            · intro hall
              exact absurd hs (by simp [hall a (le_refl a) (by omega)])
            · intro n hn1 hn2 hsn hfirst
              have : n = a := by
                by_contra hne
                have : a < n := by omega
                simp [hfirst a (le_refl a) this] at hs
              subst this
              simp
          · have hrec := ih (a + 1) (by omega)
            obtain ⟨hle, hone, hwlen, hwget, hfail, hsucc⟩ := hrec
            have heq : retryGo s a (r' + 1 + 1) =
                ⟨(retryGo s (a + 1) (r' + 1)).attempts + 1,
                 1000 * a :: (retryGo s (a + 1) (r' + 1)).waits,
                 (retryGo s (a + 1) (r' + 1)).ok⟩ := by
              simp [retryGo, hs]
            rw [heq]
            refine ⟨by simp; omega, by simp, ?_, ?_, ?_, ?_⟩
            · simp only [List.length_cons, hwlen]
              omega
            · intro i hi
              cases i with
              | zero => simp
              | succ j =>
                  simp only [List.length_cons] at hi
                  have hj : j < (retryGo s (a + 1) (r' + 1)).waits.length := by omega
                  have hgj := hwget j hj
                  simp only [List.get_cons_succ]
                  exact hgj.trans (by ring)
            · intro hall
              have hsub : ∀ n, a + 1 ≤ n → n < (a + 1) + (r' + 1) → s n = false := by
                intro n h1 h2
                exact hall n (by omega) (by omega)
              obtain ⟨ha, ho⟩ := hfail hsub
              exact ⟨by simp [ha], by simpa using ho⟩
            · intro n hn1 hn2 hsn hfirst
              have hna : a < n := by
                by_contra hne
                have : n = a := by omega
                subst this
                simp [hsn] at hs
              have hsub : ∀ k, a + 1 ≤ k → k < n → s k = false := by
                intro k h1 h2
                exact hfirst k (by omega) h2
              obtain ⟨ha, ho⟩ := hsucc n (by omega) (by omega) hsn hsub
              refine ⟨?_, by simpa using ho⟩
              simp only [ha]
              omega

/-- C2: `performAnalysisWithRetry` makes at most `maxRetries` attempts (at
least one when `maxRetries ≥ 1`, default 3), inserts a wait of
`1000 * attempt` milliseconds after each failed non-final attempt (the
`i`-th recorded wait, following attempt `i + 1`), returns normally at the
first attempt whose `analyzeWithAI` call does not throw, and throws (returns
abnormally) exactly when every attempt up to `maxRetries` fails. -/
theorem performAnalysisWithRetry_spec (s : Nat → Bool) (m : Nat) (hm : 1 ≤ m) :
    (performAnalysisWithRetry s m).attempts ≤ m ∧
    1 ≤ (performAnalysisWithRetry s m).attempts ∧
    (performAnalysisWithRetry s m).waits.length
      = (performAnalysisWithRetry s m).attempts - 1 ∧
    (∀ i (hi : i < (performAnalysisWithRetry s m).waits.length),
      (performAnalysisWithRetry s m).waits.get ⟨i, hi⟩ = 1000 * (i + 1)) ∧
    ((∀ n, 1 ≤ n → n ≤ m → s n = false) →
      (performAnalysisWithRetry s m).attempts = m ∧
      (performAnalysisWithRetry s m).ok = false) ∧
    (∀ n, 1 ≤ n → n ≤ m → s n = true →
      (∀ k, 1 ≤ k → k < n → s k = false) →
      (performAnalysisWithRetry s m).attempts = n ∧
      (performAnalysisWithRetry s m).ok = true) := by
  obtain ⟨hle, hone, hwlen, hwget, hfail, hsucc⟩ := retryGo_spec s m 1 hm
  simp only [performAnalysisWithRetry]
  refine ⟨hle, hone, hwlen, ?_, ?_, ?_⟩
  · intro i hi
    have hgi := hwget i (by simpa [performAnalysisWithRetry] using hi)
    exact hgi.trans (by ring)
  · intro hall
    exact hfail (fun n h1 h2 => hall n h1 (by omega))
  · intro n h1 h2 hsn hfirst
    obtain ⟨ha, ho⟩ := hsucc n h1 (by omega) hsn hfirst
    refine ⟨?_, ho⟩
    rw [ha]
    omega

/-- Witness for `performAnalysisWithRetry_spec` with `maxRetries = 3` and an
analysis that first succeeds on attempt 2: two attempts, one wait, normal
return. -/
theorem performAnalysisWithRetry_spec_witness :
    (performAnalysisWithRetry (fun n => decide (n = 2)) 3).attempts = 2 ∧
    (performAnalysisWithRetry (fun n => decide (n = 2)) 3).ok = true :=
  (performAnalysisWithRetry_spec (fun n => decide (n = 2)) 3 (by omega)).2.2.2.2.2
    2 (by omega) (by omega) (by decide)
    (fun k h1 h2 => by
      have : k = 1 := by omega
      subst this
      decide)

/-- C3: when the first `performAnalysis` call (with the selected provider)
throws, `analyzeWithAI` performs the analysis exactly once more, with the
fallback provider — the `'huggingface'` entry of the provider map — returns
that second result on success, propagates the fallback error when the second
attempt also fails, and propagates the original error (after a single
analysis call) when no fallback provider exists. -/
theorem analyzeWithAI_fallback :
    (∀ (analyze : Nat → Provider → Except String String) (selected : Provider)
        (providers : Option (List (String × Provider))) (a : String),
      analyze 0 selected = .ok a →
      analyzeWithAI analyze selected providers = (.ok a, [selected])) ∧
    (∀ (analyze : Nat → Provider → Except String String) (selected : Provider)
        (providers : Option (List (String × Provider))) (e : String),
      analyze 0 selected = .error e →
      getFallbackProvider providers = none →
      analyzeWithAI analyze selected providers = (.error e, [selected])) ∧
    (∀ (analyze : Nat → Provider → Except String String) (selected : Provider)
        (ps : List (String × Provider)) (e a : String) (fb : Provider),
      analyze 0 selected = .error e →
      ps.lookup "huggingface" = some fb →
      analyze 1 fb = .ok a →
      analyzeWithAI analyze selected (some ps) = (.ok a, [selected, fb])) ∧
    (∀ (analyze : Nat → Provider → Except String String) (selected : Provider)
        (ps : List (String × Provider)) (e e2 : String) (fb : Provider),
      analyze 0 selected = .error e →
      ps.lookup "huggingface" = some fb →
      analyze 1 fb = .error e2 →
      analyzeWithAI analyze selected (some ps) = (.error e2, [selected, fb])) := by
  refine ⟨?_, ?_, ?_, ?_⟩
  · intro analyze selected providers a h
    simp [analyzeWithAI, h]
  · intro analyze selected providers e h hfb
    simp [analyzeWithAI, h, hfb]
  · intro analyze selected ps e a fb h hfb h2
    simp [analyzeWithAI, getFallbackProvider, h, hfb, h2]
  · intro analyze selected ps e e2 fb h hfb h2
    simp [analyzeWithAI, getFallbackProvider, h, hfb, h2]

/-- Witness for `analyzeWithAI_fallback`: a failing selected provider with a
configured Hugging Face fallback whose attempt succeeds. -/
theorem analyzeWithAI_fallback_witness :
    analyzeWithAI
        (fun i _ => if i = 0 then .error "boom" else .ok "description")
        ⟨"OpenAI"⟩ (some [("huggingface", ⟨"Hugging Face"⟩)])
      = (.ok "description", [⟨"OpenAI"⟩, ⟨"Hugging Face"⟩]) :=
  analyzeWithAI_fallback.2.2.1
    (fun i _ => if i = 0 then .error "boom" else .ok "description")
    ⟨"OpenAI"⟩ [("huggingface", ⟨"Hugging Face"⟩)] "boom" "description"
    ⟨"Hugging Face"⟩ rfl rfl rfl

/-- A concrete image `currentCapture` used to exhibit the extra field. -/
def sampleImageCurrent : JSObj :=
  imageCurrentCapture "screen" "data:image/png;base64,AAAA"
    "2025-01-01T00:00:00.000Z" "capture_screen_1.png"

/-- C5 counterexample: the record `saveToHistory` appends for an image
capture carries the field `subtype`, which is none of the fields the claim
allows (identifier, type tag, dataUrl, timestamp, filename, analysis text,
upload URL/provider). -/
theorem savedCapture_extra_field :
    "subtype" ∈ (mkSavedCapture sampleImageCurrent 1).map Prod.fst ∧
    "subtype" ∉ specAllowedCaptureFields := by
  constructor
  · simp [mkSavedCapture, sampleImageCurrent, imageCurrentCapture, setField,
      getFieldD, jsOrNull, JSVal.truthy]
  · decide

/-- C5 (amended): every record appended to the persisted list has an `id`,
a `type` tag that is `'image'` or `'video'`, a `dataUrl`, a `timestamp` and
a `filename`, and beyond those carries exactly a `thumbnail` field and the
`uploadUrl`/`uploadProvider` fields (null when absent on the pending
capture), plus a `subtype` tag for image captures and the recorded `blob`
for video captures; no AI-analysis-text field is added at save time. -/
theorem savedCapture_fields_amended
    (subtype dataUrl timestamp filename objectUrl : String) (now : Int) :
    (mkSavedCapture (imageCurrentCapture subtype dataUrl timestamp filename) now).map Prod.fst
      = ["type", "subtype", "dataUrl", "timestamp", "filename",
         "id", "thumbnail", "uploadUrl", "uploadProvider"] ∧
    (mkSavedCapture (videoCurrentCapture objectUrl timestamp filename) now).map Prod.fst
      = ["type", "dataUrl", "blob", "timestamp", "filename",
         "id", "thumbnail", "uploadUrl", "uploadProvider"] ∧
    getFieldD (mkSavedCapture (imageCurrentCapture subtype dataUrl timestamp filename) now) "type"
      = .str "image" ∧
    getFieldD (mkSavedCapture (videoCurrentCapture objectUrl timestamp filename) now) "type"
      = .str "video" ∧
    getFieldD (mkSavedCapture (imageCurrentCapture subtype dataUrl timestamp filename) now) "id"
      = .num now ∧
    getFieldD (mkSavedCapture (imageCurrentCapture subtype dataUrl timestamp filename) now) "dataUrl"
      = .str dataUrl ∧
    getFieldD (mkSavedCapture (imageCurrentCapture subtype dataUrl timestamp filename) now) "timestamp"
      = .str timestamp ∧
    getFieldD (mkSavedCapture (imageCurrentCapture subtype dataUrl timestamp filename) now) "filename"
      = .str filename ∧
    getFieldD (mkSavedCapture (videoCurrentCapture objectUrl timestamp filename) now) "id"
      = .num now ∧
    getFieldD (mkSavedCapture (videoCurrentCapture objectUrl timestamp filename) now) "dataUrl"
      = .str objectUrl := by
  refine ⟨?_, ?_, ?_, ?_, ?_, ?_, ?_, ?_, ?_, ?_⟩ <;> rfl

lemma errString_ne_empty (e : JsErr) (fallback : String) (h : fallback ≠ "") :
    errString e fallback ≠ "" := by
  unfold errString
  split
  · assumption
  · split
    · assumption
    · exact h

/-- C7: `captureScreen` settles by resolution in every environment (the
model is a total function into `CaptureResult`); it resolves with
`success = true` and a generated filename exactly when the capture API is
available, `getDisplayMedia` yields a stream with a video track and
`grabFrame` succeeds, and in every failure case it resolves with
`success = false` and a non-empty error string. -/
theorem captureScreen_resolves (env : CaptureEnv) (now : Int) :
    ((captureScreen env now).success = true →
      (captureScreen env now).filename
        = some ("capture_" ++ toString now ++ ".png") ∧
      (captureScreen env now).error = none) ∧
    ((captureScreen env now).success = false →
      ∃ s, (captureScreen env now).error = some s ∧ s ≠ "") ∧
    ((captureScreen env now).success = true ↔
      env.apiAvailable = true ∧
      (∃ n, env.displayMedia = .ok n ∧ n ≠ 0) ∧
      env.grabFrame = .ok ()) := by
  obtain ⟨api, dm, gf⟩ := env
  cases api with
  | false =>
      refine ⟨by intro h; simp [captureScreen] at h, ?_, by simp [captureScreen]⟩
      intro _
      exact ⟨"Screen capture not supported", rfl, by decide⟩
  | true =>
      cases dm with
      | error e =>
          refine ⟨by intro h; simp [captureScreen] at h, ?_, by simp [captureScreen]⟩
          intro _
          exact ⟨errString e "Failed to access screen capture", rfl,
            errString_ne_empty e _ (by decide)⟩
      | ok nTracks =>
          by_cases hn : nTracks = 0
          · subst hn
            refine ⟨by intro h; simp [captureScreen] at h, ?_, by simp [captureScreen]⟩
            intro _
            exact ⟨"No video track found", rfl, by decide⟩
          · cases gf with
            | error e =>
                refine ⟨by intro h; simp [captureScreen, hn] at h, ?_, ?_⟩
                · intro _
                  refine ⟨errString e "Failed to capture image", ?_,
                    errString_ne_empty e _ (by decide)⟩
                  simp [captureScreen, hn]
                · simp [captureScreen, hn]
            | ok u =>
                obtain ⟨⟩ := u
                refine ⟨?_, ?_, ?_⟩
                · intro _
                  exact ⟨by simp [captureScreen, hn], by simp [captureScreen, hn]⟩
                · intro h
                  simp [captureScreen, hn] at h
                · simp [captureScreen, hn]

/-- Witness for `captureScreen_resolves`: the environment with an available
API, a one-track stream and a successful frame grab resolves successfully,
and the environment without the capture API resolves with a non-empty
error. -/
theorem captureScreen_resolves_witness :
    (captureScreen ⟨true, .ok 1, .ok ()⟩ 5).filename = some "capture_5.png" ∧
    ∃ s, (captureScreen ⟨false, .ok 1, .ok ()⟩ 5).error = some s ∧ s ≠ "" :=
  ⟨((captureScreen_resolves ⟨true, .ok 1, .ok ()⟩ 5).1 rfl).1,
   (captureScreen_resolves ⟨false, .ok 1, .ok ()⟩ 5).2.1 rfl⟩

lemma previewPoll_resolves (vis : Nat → Bool) :
    ∀ (d k m : Nat), m - k = d → k ≤ m → m < 20 →
      (∀ j, k ≤ j → j < m → vis (500 * j) = false) →
      vis (500 * m) = true →
      previewPoll vis k = .resolved (500 * m) := by
  intro d
  induction d with
  | zero =>
      intro k m hd hkm hm20 _ hv
      have : k = m := by omega
      subst this
      rw [previewPoll, dif_neg (by omega), if_pos hv]
  | succ d ih =>
      intro k m hd hkm hm20 hfail hv
      have hklt : k < m := by omega
      have hvk : vis (500 * k) = false := hfail k (le_refl k) hklt
      rw [previewPoll, dif_neg (by omega), if_neg (by simp [hvk])]
      exact ih (k + 1) m (by omega) (by omega) hm20
        (fun j h1 h2 => hfail j (by omega) h2) hv

lemma previewPoll_times_out (vis : Nat → Bool)
    (hfail : ∀ j, j < 20 → vis (500 * j) = false) :
    ∀ (d k : Nat), 20 - k = d →
      previewPoll vis k = .rejected "Live preview timeout" := by
  intro d
  induction d with
  | zero =>
      intro k hd
      rw [previewPoll, dif_pos (by omega)]
  | succ d ih =>
      intro k hd
      have hk : k < 20 := by omega
      rw [previewPoll, dif_neg (by omega), if_neg (by simp [hfail k hk])]
      exact ih (k + 1) (by omega)

/-- C8: `waitForLivePreview` polls visibility at 500 ms intervals (poll `k`
at time `500 * k` ms), resolves at the first poll that finds a preview
element visible, and rejects with `'Live preview timeout'` when no poll
before the 10-second timeout finds one; and in `startEnhancedQuickSequence`
the executed steps are always a prefix of the source-ordered step list
`capture, previewWait, enableAnalysis, analysis, save`, with the analysis
step executed exactly when the capture step and the preview wait both
completed without throwing. -/
theorem previewWait_and_sequencing (vis : Nat → Bool) :
    (∀ k, k < 20 → vis (500 * k) = true → (∀ j, j < k → vis (500 * j) = false) →
      waitForLivePreview vis = .resolved (500 * k)) ∧
    ((∀ k, k < 20 → vis (500 * k) = false) →
      waitForLivePreview vis = .rejected "Live preview timeout") ∧
    (∀ c p a s : Bool,
      (startEnhancedQuickSequence c p a s).1
        = quickSequenceSteps.take
            (if c then (if p then (if a then 5 else 4) else 2) else 1) ∧
      (SeqStep.analysis ∈ (startEnhancedQuickSequence c p a s).1 ↔
        c = true ∧ p = true)) := by
  refine ⟨?_, ?_, ?_⟩
  · intro k hk hv hfirst
    exact previewPoll_resolves vis k 0 k rfl (Nat.zero_le k) hk
      (fun j _ h2 => hfirst j h2) hv
  · intro hfail
    exact previewPoll_times_out vis hfail 20 0 rfl
  · intro c p a s
    cases c <;> cases p <;> cases a <;> cases s <;>
      simp [startEnhancedQuickSequence, quickSequenceSteps]

/-- Witness for `previewWait_and_sequencing`: a preview that first becomes
visible at 1000 ms resolves at 1000 ms, and an always-hidden preview
rejects with the timeout message. -/
theorem previewWait_and_sequencing_witness :
    waitForLivePreview (fun t => decide (1000 ≤ t)) = .resolved 1000 ∧
    waitForLivePreview (fun _ => false) = .rejected "Live preview timeout" :=
  ⟨(previewWait_and_sequencing (fun t => decide (1000 ≤ t))).1 2 (by omega)
      (by decide)
      (fun j hj => by interval_cases j <;> decide),
   (previewWait_and_sequencing (fun _ => false)).2.1 (fun k _ => rfl)⟩

end Rapture







